import Mathlib

/-!
Shallow embedding of the asciitable reader core (src/asciitable.py) and of the
format-guessing front end (src/asciitable/ui.py), together with theorems
settling the frozen claims about them.

Conventions of the embedding:
* Python exceptions become an explicit `PyError` type; fallible code returns
  `Except PyError _`.
* Python generators that are consumed once are materialised as lists.
* `re.compile(pattern).match` for a configured comment pattern is abstracted as
  a boolean predicate `String → Bool` on lines; the concrete pattern
  `\s*#` used by the shipped readers is embedded as `hashCommentMatch`.
* Python builtins (`str.strip`, `int(..)`, `float(..)` parsing) are embedded
  as executable Lean functions on strings.
-/

namespace Asciitable

/-- Structured payload of an `InconsistentTableError`.  The Python code builds
one formatted message string from these data; we keep them structured. -/
inductive ITMsg where
  /-- `get_cols`: header column count vs first data row field count. -/
  | headerMismatch (nHeader nData : Nat) (headerVals dataVals : List String)
  /-- `BaseReader.read` row loop: header/ref column count, the offending row's
  field count, the zero-based data line number, header names, row values. -/
  | rowMismatch (nHeader nData line : Nat) (headerNames dataVals : List String)
  /-- `_guess` fallback: `Unable to read table with guess=True.` -/
  | unableToGuess
  deriving DecidableEq, Repr

/-- The Python exceptions that the embedded code can raise. -/
inductive PyError where
  | inconsistentTable (msg : ITMsg)
  | valueError (msg : String)
  | typeError
  | nameError
  | indexError
  deriving DecidableEq, Repr

/-! ## Python string builtins -/

/-- The characters Python's `str.strip()` removes (string whitespace). -/
def pyIsSpace (c : Char) : Bool :=
  c = ' ' || c = '\t' || c = '\n' || c = '\r' || c = '\x0b' || c = '\x0c'

/-- `str.strip()` on a character list. -/
def stripChars (cs : List Char) : List Char :=
  ((cs.dropWhile pyIsSpace).reverse.dropWhile pyIsSpace).reverse

/-- Truthiness of `x.strip()`: `true` when the line is blank (whitespace only). -/
def pyBlank (s : String) : Bool :=
  s.toList.all pyIsSpace

/-- Value of a nonempty all-digit character list, else `none`. -/
def digitsVal (cs : List Char) : Option Nat :=
  if cs ≠ [] && cs.all Char.isDigit then
    some (cs.foldl (fun n c => 10 * n + (c.toNat - 48)) 0)
  else
    none

/-- Python 2 `int(s)`: surrounding whitespace allowed, optional sign, then a
nonempty run of decimal digits; `none` models the `ValueError` raise. -/
def pyInt (s : String) : Option Int :=
  match stripChars s.toList with
  | '+' :: rest => (digitsVal rest).map Int.ofNat
  | '-' :: rest => (digitsVal rest).map (fun n => -(n : Int))
  | cs => (digitsVal cs).map Int.ofNat

/-- Split a char list at the first `e`/`E` (exponent marker of a float literal). -/
def splitExp (cs : List Char) : List Char × Option (List Char) :=
  let m := cs.takeWhile (fun c => c ≠ 'e' && c ≠ 'E')
  match cs.dropWhile (fun c => c ≠ 'e' && c ≠ 'E') with
  | [] => (m, none)
  | _ :: rest => (m, some rest)

/-- Mantissa of a float literal: `d+`, `d+.`, `d+.d+` or `.d+`. -/
def mantissaOk (cs : List Char) : Bool :=
  let ip := cs.takeWhile Char.isDigit
  match cs.dropWhile Char.isDigit with
  | [] => !ip.isEmpty
  | '.' :: fp => fp.all Char.isDigit && (!ip.isEmpty || !fp.isEmpty)
  | _ => false

/-- Exponent part of a float literal: optional sign and a nonempty digit run. -/
def expOk (cs : List Char) : Bool :=
  match cs with
  | '+' :: rest => !rest.isEmpty && rest.all Char.isDigit
  | '-' :: rest => !rest.isEmpty && rest.all Char.isDigit
  | rest => !rest.isEmpty && rest.all Char.isDigit

/-- Unsigned numeric float literal body (mantissa with optional exponent). -/
def numericFloat (cs : List Char) : Bool :=
  match splitExp cs with
  | (m, none) => mantissaOk m
  | (m, some e) => mantissaOk m && expOk e

/-- Whether Python 2 `float(s)` succeeds: surrounding whitespace allowed,
optional sign, then a numeric literal or (case-insensitively) `inf`,
`infinity` or `nan`. -/
def pyFloatParses (s : String) : Bool :=
  let body :=
    match stripChars s.toList with
    | '+' :: rest => rest
    | '-' :: rest => rest
    | cs => cs
  let low := body.map Char.toLower
  low = ['i', 'n', 'f'] || low = ['i', 'n', 'f', 'i', 'n', 'i', 't', 'y'] ||
    low = ['n', 'a', 'n'] || numericFloat body

/-- `s[i]` on a list, raising `IndexError` when out of range. -/
def pyGetItem {α : Type} (l : List α) (i : Nat) : Except PyError α :=
  if h : i < l.length then .ok l[i] else .error .indexError

/-- Start bound of a Python slice on a list of length `n`. -/
def pySliceStart (n : Nat) : Option Int → Nat
  | Option.none => 0
  | some i => if i < 0 then (max 0 ((n : Int) + i)).toNat else min n i.toNat

/-- End bound of a Python slice on a list of length `n`. -/
def pySliceEnd (n : Nat) : Option Int → Nat
  | Option.none => n
  | some i => if i < 0 then (max 0 ((n : Int) + i)).toNat else min n i.toNat

/-- `l[s:e]` with Python semantics (negative indices count from the end). -/
def pySlice {α : Type} (l : List α) (s e : Option Int) : List α :=
  (l.take (pySliceEnd l.length e)).drop (pySliceStart l.length s)

/-! ## Columns and line filtering -/

/-- `Column` (src/asciitable.py:21-25), with the `mask` attribute that
`set_masks` may later attach. -/
structure Column where
  name : String
  index : Nat
  str_vals : List String
  mask : Option (List Bool) := none
  deriving DecidableEq, Repr

/-- `re.match(r'\s*#', line)` as a boolean: leading whitespace then `#`.
This is the comment pattern configured by the shipped readers. -/
def hashCommentMatch (s : String) : Bool :=
  match s.toList.dropWhile pyIsSpace with
  | '#' :: _ => true
  | _ => false

/-- `BaseHeader.process_lines` (src/asciitable.py:228-235) with a comment
pattern configured: with `self.comment` set, the guard
`line and not self.comment or not re_comment.match(line)` reduces to
`not re_comment.match(line)`, so exactly the non-matching lines are yielded
(blank lines included). -/
def headerProcessLines (matchesComment : String → Bool) (lines : List String) :
    List String :=
  lines.filter (fun line => !matchesComment line)

/-- `BaseData.process_lines` (src/asciitable.py:256-263): drop blank lines,
then, when a comment pattern is configured, drop the matching lines. -/
def dataProcessLines (matchesComment : Option (String → Bool))
    (lines : List String) : List String :=
  let nonblank_lines := lines.filter (fun x => !pyBlank x)
  match matchesComment with
  | some f => nonblank_lines.filter (fun x => !f x)
  | none => nonblank_lines

/-- Claim-side variant of header line filtering, following the words of the
spec: blank lines are discarded first, then comment-matching lines are
excluded.  Used only to compare with `headerProcessLines`. -/
def claimHeaderProcessLines (matchesComment : String → Bool)
    (lines : List String) : List String :=
  (lines.filter (fun x => !pyBlank x)).filter (fun x => !matchesComment x)

/-! ## Data line location (`BaseData.get_data_lines`) -/

/-- A header/data start/end locator: `None`, an `int`, or a function of the
line list returning `None` or an `int` (src/asciitable.py docstrings). -/
inductive Locator where
  | none
  | idx (i : Int)
  | func (f : List String → Option Int)

/-- `_get_line_index` (src/asciitable.py:153-157). -/
def getLineIndex (loc : Locator) (lines : List String) : Option Int :=
  match loc with
  | .none => Option.none
  | .idx i => some i
  | .func f => f lines

/-- `BaseData.get_data_lines` (src/asciitable.py:265-273).  Note that the
slice is taken as `data_lines[slice(start_line, self.end_line)]`: the SECOND
bound is the raw `end_line` attribute, not the computed index, so when the
end locator is a function the slice raises
`TypeError: slice indices must be integers`. -/
def get_data_lines (start_loc end_loc : Locator)
    (matchesComment : Option (String → Bool)) (lines : List String) :
    Except PyError (List String) :=
  let data_lines := dataProcessLines matchesComment lines
  let start_line := getLineIndex start_loc data_lines
  let end_line := getLineIndex end_loc data_lines
  if start_line.isSome || end_line.isSome then
    match end_loc with
    | .func _ => .error .typeError
    | .none => .ok (pySlice data_lines start_line Option.none)
    | .idx i => .ok (pySlice data_lines start_line (some i))
  else
    .ok data_lines

/-! ## Header column filtering (`BaseHeader.get_cols`, src/asciitable.py:220-226) -/

/-- The name set after `names = set(self.names)`,
`names.intersection_update(include_names)` (when supplied) and
`names.difference_update(exclude_names)` (when supplied); modelled as a list,
only membership is used. -/
def selectedNames (names : List String)
    (include_names exclude_names : Option (List String)) : List String :=
  let s1 := match include_names with
    | some incl => names.filter (fun x => incl.contains x)
    | Option.none => names
  match exclude_names with
  | some excl => s1.filter (fun x => !excl.contains x)
  | Option.none => s1

/-- `self.cols = [Column(name=x, index=i) for i, x in enumerate(self.names)
if x in names]` after the include/exclude set updates. -/
def get_cols_filtered (names : List String)
    (include_names exclude_names : Option (List String)) : List Column :=
  let sel := selectedNames names include_names exclude_names
  (names.enum.filter (fun p => sel.contains p.2)).map
    (fun p => { name := p.2, index := p.1, str_vals := [] })

/-! ## The row-accumulation loop of `BaseReader.read` (src/asciitable.py:436-448) -/

/-- One iteration's `for col in cols: col.str_vals.append(str_vals[col.index])`. -/
def appendVals : List Column → List String → Except PyError (List Column)
  | [], _ => .ok []
  | c :: cs, vals =>
    match pyGetItem vals c.index with
    | .error e => .error e
    | .ok v =>
      match appendVals cs vals with
      | .error e => .error e
      | .ok cs2 => .ok ({ c with str_vals := c.str_vals ++ [v] } :: cs2)

/-- The `enumerate(self.data.get_str_vals())` loop: `n` is `n_data_cols`
(set from row 0), `i` the enumerate counter. -/
def readLoopAux (n i : Nat) (cols : List Column) :
    List (List String) → Except PyError (List Column)
  | [] => .ok cols
  | vals :: rest =>
    if vals.length = n then
      match appendVals cols vals with
      | .error e => .error e
      | .ok cols2 => readLoopAux n (i + 1) cols2 rest
    else
      .error (.inconsistentTable
        (.rowMismatch cols.length vals.length i (cols.map (·.name)) vals))

/-- The whole row loop of `BaseReader.read`: `n_data_cols` is taken from the
first split row, every subsequent row must have the same field count, and each
requested column's value is appended by its recorded index. -/
def readRows (cols : List Column) (rows : List (List String)) :
    Except PyError (List Column) :=
  match rows with
  | [] => .ok cols
  | r0 :: _ => readLoopAux r0.length 0 cols rows

/-! ## `BaseData.set_masks` (src/asciitable.py:278-284)

The method reads the bare name `fill_values` inside the generator expression
`((i, x) for i, x in enumerate(col.str_vals) if x in fill_values)` instead of
`self.fill_values`.  No local or module-level `fill_values` exists, so the
first evaluation of the `if x in fill_values` clause raises `NameError`.
The clause is evaluated lazily: a column with no accumulated values never
evaluates it. -/

def setMasksGo : List Column → Except PyError (List Column)
  | [] => .ok []
  | c :: cs =>
    let c2 := { c with mask := some (List.replicate c.str_vals.length false) }
    if c.str_vals.isEmpty then
      match setMasksGo cs with
      | .error e => .error e
      | .ok cs2 => .ok (c2 :: cs2)
    else
      .error .nameError

/-- `BaseData.set_masks`.  `fill_values` is the configured dict of
(bad value, fill value) pairs, `none` when unset. -/
def set_masks (fill_values : Option (List (String × String)))
    (cols : List Column) : Except PyError (List Column) :=
  match fill_values with
  | Option.none => .ok cols
  | some _ => setMasksGo cols

/-! ## `BaseOutputter._convert_vals` (src/asciitable.py:330-345) -/

/-- The typed values a converter yields.  The `floats` payload keeps the raw
literals; the numeric float values themselves are not modelled. -/
inductive TypedVals where
  | ints (l : List Int)
  | floats (l : List String)
  | strs (l : List String)

/-- A converter: a function from the raw string values of a column that either
returns converted values or raises. -/
def Converter := List String → Except PyError TypedVals

/-- `lambda vals: [int(x) for x in vals]` -/
def intListConverter : Converter := fun vals =>
  match vals.mapM pyInt with
  | some l => .ok (.ints l)
  | Option.none => .error (.valueError "invalid literal for int()")

/-- `lambda vals: [float(x) for x in vals]` -/
def floatListConverter : Converter := fun vals =>
  if vals.all pyFloatParses then .ok (.floats vals)
  else .error (.valueError "could not convert string to float")

/-- `lambda vals: vals` -/
def strListConverter : Converter := fun vals => .ok (.strs vals)

/-- `BaseOutputter.default_converter` (src/asciitable.py:320-322). -/
def default_converter : List Converter :=
  [intListConverter, floatListConverter, strListConverter]

/-- The exception classes caught by the converter loop:
`except (TypeError, ValueError): col.converters.pop(0)`. -/
def caughtByConvert : PyError → Bool
  | .typeError => true
  | .valueError _ => true
  | _ => false

/-- The `while not hasattr(col, 'data')` loop of `_convert_vals` for one
column: try `converters[0]`, pop it on `TypeError`/`ValueError`; when the
list is exhausted (`IndexError` on `converters[0]`) raise
`ValueError('Column <name> failed to convert')`. -/
def convertCol (name : String) (convs : List Converter) (vals : List String) :
    Except PyError TypedVals :=
  match convs with
  | [] => .error (.valueError ("Column " ++ name ++ " failed to convert"))
  | c :: rest =>
    match c vals with
    | .ok t => .ok t
    | .error e => if caughtByConvert e then convertCol name rest vals else .error e

/-- `self.converters.get(col.name, self.default_converter)` followed by the
conversion loop, for one column.  `converters` is the per-name override dict. -/
def convertVals (converters : List (String × List Converter)) (name : String)
    (vals : List String) : Except PyError TypedVals :=
  let convs :=
    match converters.lookup name with
    | some cl => cl
    | Option.none => default_converter
  convertCol name convs vals

/-! ## The guesser (src/asciitable/ui.py) -/

/-- The Reader classes that appear in `_get_guess_kwargs_list`. -/
inductive RKind where
  | rdb
  | tab
  | cds
  | daophot
  | ipac
  | commentedHeader
  | basic
  | noHeader
  deriving DecidableEq, Repr

/-- Keyword-argument keys of the read configuration surface
(`extra_reader_pars` in src/asciitable/ui.py:55-60, plus the class keys). -/
inductive Key where
  | Reader
  | Inputter
  | Outputter
  | delimiter
  | comment
  | quotechar
  | headerStart
  | dataStart
  | dataEnd
  | converters
  | dataSplitter
  | headerSplitter
  | names
  | includeNames
  | excludeNames
  | fillValues
  | fillIncludeNames
  | fillExcludeNames
  deriving DecidableEq, Repr

/-- Keyword-argument values, restricted to the shapes the guess candidates and
the claims need (Reader classes and strings). -/
inductive Val where
  | rdr (r : RKind)
  | str (s : String)
  deriving DecidableEq, Repr

/-- A Python kwargs dict, as an insertion-ordered association list with
distinct keys. -/
abbrev Kwargs := List (Key × Val)

/-- `key in guess_kwargs`. -/
def hasKey (kw : Kwargs) (k : Key) : Bool :=
  kw.any (fun p => p.1 = k)

/-- The inner loop of `_guess` (src/asciitable/ui.py:158-164):
`for key, val in read_kwargs.items(): if key not in guess_kwargs:
guess_kwargs[key] = val; elif val != guess_kwargs[key]: continue`.
The `continue` is inside the INNER loop, so a conflicting key merely stays at
the candidate's own value; the candidate is not skipped. -/
def processCandidate (read_kwargs guess_kwargs : Kwargs) : Kwargs :=
  read_kwargs.foldl
    (fun g kv => if hasKey g kv.1 then g else g ++ [kv]) guess_kwargs

/-- The intended merge according to `_guess`'s own docstring and inline
comment ("if guess_args has a conflicting key/val pair then skip this guess
entirely"): `none` when any caller key conflicts with the candidate's value. -/
def processCandidateIntended (read_kwargs guess_kwargs : Kwargs) :
    Option Kwargs :=
  if read_kwargs.any (fun kv =>
      match guess_kwargs.lookup kv.1 with
      | some v => v ≠ kv.2
      | Option.none => false) then
    Option.none
  else
    some (processCandidate read_kwargs guess_kwargs)

/-- `_is_number` (src/asciitable/ui.py:141-147): whether `float(x)` succeeds. -/
def _is_number (x : String) : Bool :=
  pyFloatParses x

/-- `bads = [" ", ",", "|", "\t", "'", '"']` (src/asciitable/ui.py:170),
as the underlying characters. -/
def bads : List Char :=
  [' ', ',', '|', '\t', '\x27', '"']

/-- The per-name test of the guess acceptance heuristic
(src/asciitable/ui.py:172-175): numeric, empty, or first/last character in
`bads`.  The length test short-circuits before the indexing, as in Python. -/
def colNameBad (n : String) : Bool :=
  _is_number n || n.length == 0 ||
    (match n.toList.head? with
     | some c => bads.contains c
     | Option.none => false) ||
    (match n.toList.getLast? with
     | some c => bads.contains c
     | Option.none => false)

/-- The guess acceptance heuristic on the produced column names
(src/asciitable/ui.py:171-176): reject when at most one column or any bad
name; rejection raises a `ValueError` that the candidate loop catches. -/
def heuristicReject (colNames : List String) : Bool :=
  colNames.length ≤ 1 || colNames.any colNameBad

/-- The exception classes the candidate loop catches
(`except (core.InconsistentTableError, ValueError, TypeError)`). -/
def guessCatches : PyError → Bool
  | .inconsistentTable _ => true
  | .valueError _ => true
  | .typeError => true
  | _ => false

/-- `_get_guess_kwargs_list` (src/asciitable/ui.py:188-200): the five fixed
Reader presets, then the product of three Readers, four delimiters and two
quote characters. -/
def guess_kwargs_list : List Kwargs :=
  [[(Key.Reader, Val.rdr .rdb)],
   [(Key.Reader, Val.rdr .tab)],
   [(Key.Reader, Val.rdr .cds)],
   [(Key.Reader, Val.rdr .daophot)],
   [(Key.Reader, Val.rdr .ipac)]] ++
  ([RKind.commentedHeader, RKind.basic, RKind.noHeader].flatMap (fun r =>
    (["|", ",", " ", "\\s"].flatMap (fun d =>
      ["\"", "\x27"].map (fun q =>
        [(Key.Reader, Val.rdr r), (Key.delimiter, Val.str d),
         (Key.quotechar, Val.str q)])))))

/-- The candidate loop plus the for-else fallback of `_guess`
(src/asciitable/ui.py:157-186).  `attempt` stands for
`get_reader(**guess_kwargs); reader.read(table)` on the fixed input; its
`.ok` payload is the list of produced column names (reader.cols), which is
both what the acceptance heuristic inspects and what identifies the returned
table. -/
def guessLoop (attempt : Kwargs → Except PyError (List String))
    (read_kwargs : Kwargs) : List Kwargs → Except PyError (List String)
  | [] =>
    match attempt read_kwargs with
    | .ok t => .ok t
    | .error e =>
      match e with
      | .inconsistentTable _ => .error (.inconsistentTable .unableToGuess)
      | .valueError _ => .error (.inconsistentTable .unableToGuess)
      | _ => .error e
  | gk :: rest =>
    match attempt (processCandidate read_kwargs gk) with
    | .ok t =>
      if heuristicReject t then guessLoop attempt read_kwargs rest else .ok t
    | .error e =>
      if guessCatches e then guessLoop attempt read_kwargs rest else .error e

/-- `_guess` (src/asciitable/ui.py:149-186): try the caller's own kwargs
first, then every entry of `_get_guess_kwargs_list`, then the fallback. -/
def _guess (attempt : Kwargs → Except PyError (List String))
    (read_kwargs : Kwargs) : Except PyError (List String) :=
  guessLoop attempt read_kwargs (read_kwargs :: guess_kwargs_list)

/-- Claim-side candidate preset list, following the claim's words: fixed
ranked presets in the order tab-delimited, RDB, CDS, DAOphot, then the same
cartesian product.  Used only to compare with `guess_kwargs_list`. -/
def claimedPresetList : List Kwargs :=
  [[(Key.Reader, Val.rdr .tab)],
   [(Key.Reader, Val.rdr .rdb)],
   [(Key.Reader, Val.rdr .cds)],
   [(Key.Reader, Val.rdr .daophot)]] ++
  ([RKind.commentedHeader, RKind.basic, RKind.noHeader].flatMap (fun r =>
    (["|", ",", " ", "\\s"].flatMap (fun d =>
      ["\"", "\x27"].map (fun q =>
        [(Key.Reader, Val.rdr r), (Key.delimiter, Val.str d),
         (Key.quotechar, Val.str q)])))))

/-! ## Concrete `attempt` instances used in guesser theorems.

An `attempt` function stands for `get_reader(**kwargs); reader.read(table)`
on one fixed input: it maps the merged kwargs of a candidate to the outcome of
that candidate's full read. -/

/-- An input/configuration on which the caller's own kwargs fail with the
conversion `ValueError` (converter list exhausted) while every preset
candidate parses into columns `a`, `b`. -/
def attemptConvFail : Kwargs → Except PyError (List String) := fun kw =>
  if kw = ([] : Kwargs) then .error (.valueError "Column a failed to convert")
  else .ok ["a", "b"]

/-- An attempt that always fails with the conversion `ValueError`. -/
def attemptAlwaysConvFail : Kwargs → Except PyError (List String) := fun _ =>
  .error (.valueError "Column a failed to convert")

/-- An attempt that parses every candidate into the purely numeric column
names `1`, `2`. -/
def attemptNumericNames : Kwargs → Except PyError (List String) := fun _ =>
  .ok ["1", "2"]

/-- An attempt that succeeds only when the read was configured with the
pipe delimiter: used to show that a conflicting candidate is attempted with
its own delimiter value. -/
def attemptPipeOnly : Kwargs → Except PyError (List String) := fun kw =>
  if kw.lookup Key.delimiter = some (Val.str "|") then .ok ["A", "B"]
  else .error .typeError

/-! ## Theorems settling the claims -/

/-- Claim C1 (code bug): with fill rules configured, `set_masks` never
performs the documented substitution: its generator expression reads the
unbound bare name `fill_values` (instead of `self.fill_values`), so the first
column with any accumulated value raises `NameError`.  Evaluated here at the
claim's own example: fill rule `"" ↦ "-999"` and a column holding an empty
field. -/
theorem c1_set_masks_raises_nameerror :
    set_masks (some [("", "-999")])
      [{ name := "a", index := 0, str_vals := ["", "1"] }] =
    .error .nameError := rfl

/-- Claim C4 (code bug): a candidate whose fixed `delimiter` conflicts with
the caller-supplied one is NOT skipped: the `continue` sits in the inner
per-key merge loop, so the merge keeps the candidate's own value and the
candidate is attempted with it.  The intended merge (per `_guess`'s docstring
and inline comment) would skip the candidate; the loop demonstrably attempts
the candidate with its own pipe delimiter. -/
theorem c4_conflicting_candidate_not_skipped :
    processCandidate [(Key.delimiter, Val.str ",")]
        [(Key.Reader, Val.rdr .commentedHeader), (Key.delimiter, Val.str "|"),
         (Key.quotechar, Val.str "\"")] =
      [(Key.Reader, Val.rdr .commentedHeader), (Key.delimiter, Val.str "|"),
       (Key.quotechar, Val.str "\"")]
    ∧ processCandidateIntended [(Key.delimiter, Val.str ",")]
        [(Key.Reader, Val.rdr .commentedHeader), (Key.delimiter, Val.str "|"),
         (Key.quotechar, Val.str "\"")] = Option.none
    ∧ guessLoop attemptPipeOnly [(Key.delimiter, Val.str ",")]
        [[(Key.Reader, Val.rdr .commentedHeader), (Key.delimiter, Val.str "|"),
          (Key.quotechar, Val.str "\"")]] = .ok ["A", "B"] := by
  refine ⟨by decide, by decide, rfl⟩

/-- Claim C5 counterexample: the fixed preset candidate list of
`_get_guess_kwargs_list` is not the one the claim states: the code ranks RDB
before tab-delimited and also contains an IPAC preset, which the claim's list
(tab, RDB, CDS, DAOphot, then the product) lacks. -/
theorem c5_counterexample : guess_kwargs_list ≠ claimedPresetList := by decide

/-- Claim C5 (amended): the guesser's candidate sequence is the caller's
exact configuration first, then the fixed presets RDB, tab-delimited, CDS,
DAOphot, IPAC, then the cartesian product of
{commented-header, basic, no-header} × {pipe, comma, space, whitespace-run}
× {double-quote, single-quote}, in that order. -/
theorem c5_candidate_sequence :
    (∀ (attempt : Kwargs → Except PyError (List String)) (rk : Kwargs),
      _guess attempt rk = guessLoop attempt rk (rk :: guess_kwargs_list))
    ∧ guess_kwargs_list =
      [[(Key.Reader, Val.rdr .rdb)],
       [(Key.Reader, Val.rdr .tab)],
       [(Key.Reader, Val.rdr .cds)],
       [(Key.Reader, Val.rdr .daophot)],
       [(Key.Reader, Val.rdr .ipac)],
       [(Key.Reader, Val.rdr .commentedHeader), (Key.delimiter, Val.str "|"),
        (Key.quotechar, Val.str "\"")],
       [(Key.Reader, Val.rdr .commentedHeader), (Key.delimiter, Val.str "|"),
        (Key.quotechar, Val.str "\x27")],
       [(Key.Reader, Val.rdr .commentedHeader), (Key.delimiter, Val.str ","),
        (Key.quotechar, Val.str "\"")],
       [(Key.Reader, Val.rdr .commentedHeader), (Key.delimiter, Val.str ","),
        (Key.quotechar, Val.str "\x27")],
       [(Key.Reader, Val.rdr .commentedHeader), (Key.delimiter, Val.str " "),
        (Key.quotechar, Val.str "\"")],
       [(Key.Reader, Val.rdr .commentedHeader), (Key.delimiter, Val.str " "),
        (Key.quotechar, Val.str "\x27")],
       [(Key.Reader, Val.rdr .commentedHeader), (Key.delimiter, Val.str "\\s"),
        (Key.quotechar, Val.str "\"")],
       [(Key.Reader, Val.rdr .commentedHeader), (Key.delimiter, Val.str "\\s"),
        (Key.quotechar, Val.str "\x27")],
       [(Key.Reader, Val.rdr .basic), (Key.delimiter, Val.str "|"),
        (Key.quotechar, Val.str "\"")],
       [(Key.Reader, Val.rdr .basic), (Key.delimiter, Val.str "|"),
        (Key.quotechar, Val.str "\x27")],
       [(Key.Reader, Val.rdr .basic), (Key.delimiter, Val.str ","),
        (Key.quotechar, Val.str "\"")],
       [(Key.Reader, Val.rdr .basic), (Key.delimiter, Val.str ","),
        (Key.quotechar, Val.str "\x27")],
       [(Key.Reader, Val.rdr .basic), (Key.delimiter, Val.str " "),
        (Key.quotechar, Val.str "\"")],
       [(Key.Reader, Val.rdr .basic), (Key.delimiter, Val.str " "),
        (Key.quotechar, Val.str "\x27")],
       [(Key.Reader, Val.rdr .basic), (Key.delimiter, Val.str "\\s"),
        (Key.quotechar, Val.str "\"")],
       [(Key.Reader, Val.rdr .basic), (Key.delimiter, Val.str "\\s"),
        (Key.quotechar, Val.str "\x27")],
       [(Key.Reader, Val.rdr .noHeader), (Key.delimiter, Val.str "|"),
        (Key.quotechar, Val.str "\"")],
       [(Key.Reader, Val.rdr .noHeader), (Key.delimiter, Val.str "|"),
        (Key.quotechar, Val.str "\x27")],
       [(Key.Reader, Val.rdr .noHeader), (Key.delimiter, Val.str ","),
        (Key.quotechar, Val.str "\"")],
       [(Key.Reader, Val.rdr .noHeader), (Key.delimiter, Val.str ","),
        (Key.quotechar, Val.str "\x27")],
       [(Key.Reader, Val.rdr .noHeader), (Key.delimiter, Val.str " "),
        (Key.quotechar, Val.str "\"")],
       [(Key.Reader, Val.rdr .noHeader), (Key.delimiter, Val.str " "),
        (Key.quotechar, Val.str "\x27")],
       [(Key.Reader, Val.rdr .noHeader), (Key.delimiter, Val.str "\\s"),
        (Key.quotechar, Val.str "\"")],
       [(Key.Reader, Val.rdr .noHeader), (Key.delimiter, Val.str "\\s"),
        (Key.quotechar, Val.str "\x27")]] :=
  ⟨fun _ _ => rfl, by decide⟩

/-- Claim C7 counterexample: with the standard comment pattern configured,
header line filtering does NOT discard blank lines: on input
`["", "a b"]` the header filter keeps the blank line (so the blank counts in
header-line indexing), while the claim's filtering (blanks discarded, then
comment-matching lines) would not. -/
theorem c7_counterexample :
    headerProcessLines hashCommentMatch ["", "a b"] = ["", "a b"]
    ∧ claimHeaderProcessLines hashCommentMatch ["", "a b"] = ["a b"] := by
  refine ⟨by decide, by decide⟩

/-- Claim C7 (amended): with a comment pattern configured, data parsing uses
exactly the lines that are neither blank nor comment-matching, while
header-line index counting uses exactly the lines that are not
comment-matching — blank lines are not excluded there and still count. -/
theorem c7_comment_and_blank_filtering (f : String → Bool)
    (lines : List String) (l : String) :
    (l ∈ dataProcessLines (some f) lines ↔
      l ∈ lines ∧ pyBlank l = false ∧ f l = false)
    ∧ (l ∈ headerProcessLines f lines ↔ l ∈ lines ∧ f l = false) := by
  constructor
  · simp only [dataProcessLines, List.mem_filter, Bool.not_eq_eq_eq_not,
      Bool.not_true, and_assoc]
  · simp [headerProcessLines, List.mem_filter]

/-- Claim C8 (code bug): when the data end locator is a function, the slice
in `get_data_lines` is built from the raw attribute (`self.end_line`, the
function object) instead of the computed index, so the read raises
`TypeError` instead of slicing to the computed index.  Evaluated at a
function locator computing `len(lines) - 1` on a three-line table. -/
theorem c8_function_end_locator_typeerror :
    get_data_lines Locator.none
      (Locator.func (fun ls => some ((ls.length : Int) - 1)))
      (some hashCommentMatch) ["a b", "1 2", "3 4"] = .error .typeError := rfl

/-- Claim C3 counterexample: a conversion failure IS swallowed by the
guesser.  The converter-exhaustion branch of `_convert_vals` raises a plain
`ValueError`, the candidate loop of `_guess` catches
`(InconsistentTableError, ValueError, TypeError)`, and so after the caller's
own configuration fails with exactly that conversion error the guesser moves
on and returns the next candidate's table instead of propagating the error. -/
theorem c3_counterexample :
    convertCol "a" [intListConverter] ["x"] =
      .error (.valueError "Column a failed to convert")
    ∧ attemptConvFail [] = .error (.valueError "Column a failed to convert")
    ∧ _guess attemptConvFail [] = .ok ["a", "b"] := by
  refine ⟨rfl, rfl, rfl⟩

/-- Claim C3 (amended): guessing retries a candidate on any
`InconsistentTableError`, `ValueError` or `TypeError`; since the conversion
failure is raised as a `ValueError`, a candidate failing with a conversion
error is also skipped and the guesser continues with the remaining
candidates. -/
theorem c3_conversion_error_swallowed
    (attempt : Kwargs → Except PyError (List String)) (rk gk : Kwargs)
    (rest : List Kwargs) (msg : String)
    (h : attempt (processCandidate rk gk) = .error (.valueError msg)) :
    guessLoop attempt rk (gk :: rest) = guessLoop attempt rk rest := by
  simp [guessLoop, h, guessCatches]

/-- Witness for `c3_conversion_error_swallowed` at a concrete attempt. -/
theorem c3_witness :
    guessLoop attemptAlwaysConvFail [] [[]] = guessLoop attemptAlwaysConvFail [] [] :=
  c3_conversion_error_swallowed attemptAlwaysConvFail [] [] []
    "Column a failed to convert" rfl

/-- Claim C6: a structurally successful candidate is rejected — and the
guesser continues with the next candidate — whenever fewer than two columns
were produced or some column name parses as a number, is empty, or begins or
ends with space, comma, pipe, tab, single quote or double quote. -/
theorem c6_heuristic_rejects
    (attempt : Kwargs → Except PyError (List String)) (rk gk : Kwargs)
    (rest : List Kwargs) (colNames : List String)
    (hok : attempt (processCandidate rk gk) = .ok colNames)
    (hrej : colNames.length < 2 ∨ ∃ n ∈ colNames, _is_number n = true ∨ n = "" ∨
      (∃ c, n.toList.head? = some c ∧ c ∈ bads) ∨
      (∃ c, n.toList.getLast? = some c ∧ c ∈ bads)) :
    guessLoop attempt rk (gk :: rest) = guessLoop attempt rk rest := by
  have hr : heuristicReject colNames = true := by
    rcases hrej with h | ⟨n, hn, hbad⟩
    · simp only [heuristicReject, Bool.or_eq_true, decide_eq_true_eq]
      left
      omega
    · simp only [heuristicReject, Bool.or_eq_true, List.any_eq_true]
      right
      refine ⟨n, hn, ?_⟩
      simp only [colNameBad, Bool.or_eq_true]
      rcases hbad with h | h | ⟨c, hc, hcb⟩ | ⟨c, hc, hcb⟩
      · exact Or.inl (Or.inl (Or.inl h))
      · subst h
        exact Or.inl (Or.inl (Or.inr (by decide)))
      · refine Or.inl (Or.inr ?_)
        rw [hc]
        exact List.elem_iff.mpr hcb
      · refine Or.inr ?_
        rw [hc]
        exact List.elem_iff.mpr hcb
  simp [guessLoop, hok, hr]

/-- Witness for `c6_heuristic_rejects`: the purely numeric column names
`["1", "2"]` are rejected although they parsed structurally, and guessing
continues. -/
theorem c6_witness :
    guessLoop attemptNumericNames [] [[]] = guessLoop attemptNumericNames [] [] :=
  c6_heuristic_rejects attemptNumericNames [] [] [] ["1", "2"] rfl
    (Or.inr ⟨"1", by decide, Or.inl (by decide)⟩)

/-- Claim C10: under the default configuration (no per-name converter
override) conversion of a column never fails: the default converter list ends
with the identity converter, so the `Column ... failed to convert` branch is
unreachable and the column receives int, float, or string typed values. -/
theorem c10_default_conversion_succeeds
    (converters : List (String × List Converter)) (name : String)
    (vals : List String) (h : converters.lookup name = Option.none) :
    ∃ t, convertVals converters name vals = .ok t := by
  have hd : convertVals converters name vals =
      convertCol name default_converter vals := by
    simp [convertVals, h]
  rw [hd]
  cases hm : vals.mapM pyInt with
  | some l =>
    have h1 : intListConverter vals = .ok (.ints l) := by
      unfold intListConverter
      rw [hm]
    exact ⟨.ints l, by simp [convertCol, default_converter, h1]⟩
  | none =>
    have h1 : intListConverter vals =
        .error (.valueError "invalid literal for int()") := by
      unfold intListConverter
      rw [hm]
    by_cases hf : vals.all pyFloatParses
    · have h2 : floatListConverter vals = .ok (.floats vals) := by
        unfold floatListConverter
        rw [if_pos hf]
      exact ⟨.floats vals, by
        simp [convertCol, default_converter, h1, h2, caughtByConvert]⟩
    · have h2 : floatListConverter vals =
          .error (.valueError "could not convert string to float") := by
        unfold floatListConverter
        rw [if_neg hf]
      exact ⟨.strs vals, by
        simp [convertCol, default_converter, h1, h2, strListConverter,
          caughtByConvert]⟩

/-- Witness for `c10_default_conversion_succeeds`: the mixed column
`["1", "2", "x"]` with no converter override converts successfully. -/
theorem c10_witness :
    ([] : List (String × List Converter)).lookup "a" = Option.none
    ∧ ∃ t, convertVals [] "a" ["1", "2", "x"] = .ok t :=
  ⟨rfl, c10_default_conversion_succeeds [] "a" ["1", "2", "x"] rfl⟩

/-! ### Helper lemmas for the row loop -/

theorem appendVals_ok (cols : List Column) (vals : List String)
    (h : ∀ c ∈ cols, c.index < vals.length) :
    ∃ cols2, appendVals cols vals = .ok cols2
      ∧ cols2.map (·.name) = cols.map (·.name)
      ∧ cols2.length = cols.length
      ∧ cols2.map (·.index) = cols.map (·.index) := by
  induction cols with
  | nil => exact ⟨[], rfl, rfl, rfl, rfl⟩
  | cons c cs ih =>
    have hc : c.index < vals.length := h c (List.mem_cons_self c cs)
    obtain ⟨cs2, h1, h2, h3, h4⟩ := ih (fun x hx => h x (List.mem_cons_of_mem _ hx))
    refine ⟨{ c with str_vals := c.str_vals ++ [vals[c.index]] } :: cs2, ?_, ?_, ?_, ?_⟩
    · simp [appendVals, pyGetItem, hc, h1]
    · simp [h2]
    · simp [h3]
    · simp [h4]

theorem readLoopAux_first_mismatch :
    ∀ (rows : List (List String)) (i k n : Nat) (cols : List Column),
    i < rows.length →
    (∀ j, j < i → (rows.getD j []).length = n) →
    (rows.getD i []).length ≠ n →
    (∀ c ∈ cols, c.index < n) →
    readLoopAux n k cols rows =
      .error (.inconsistentTable (.rowMismatch cols.length (rows.getD i []).length
        (k + i) (cols.map (·.name)) (rows.getD i []))) := by
  intro rows
  induction rows with
  | nil =>
    intro i k n cols hi
    simp at hi
  | cons r rest ih =>
    intro i k n cols hi hprev hbad hidx
    cases i with
    | zero =>
      simp only [List.getD_cons_zero] at hbad ⊢
      unfold readLoopAux
      rw [if_neg hbad]
      simp
    | succ j =>
      have hr : r.length = n := by
        have := hprev 0 (Nat.succ_pos j)
        simpa using this
      unfold readLoopAux
      rw [if_pos hr]
      obtain ⟨cols2, h1, h2, h3, h4⟩ :=
        appendVals_ok cols r (fun c hc => hr ▸ hidx c hc)
      rw [h1]
      have hidx2 : ∀ c ∈ cols2, c.index < n := by
        intro c hc
        have hmem : c.index ∈ cols2.map (·.index) := List.mem_map_of_mem _ hc
        rw [h4] at hmem
        obtain ⟨c0, hc0, he⟩ := List.mem_map.mp hmem
        exact he ▸ hidx c0 hc0
      have hrec := ih j (k + 1) n cols2 (by simpa using hi)
        (fun j2 hj2 => by simpa using hprev (j2 + 1) (by omega))
        (by simpa using hbad) hidx2
      show readLoopAux n (k + 1) cols2 rest = _
      rw [hrec, h2, h3]
      have hk : k + 1 + j = k + (j + 1) := by omega
      rw [hk]
      simp

/-! ### Helper lemmas for header column filtering -/

theorem map_name_filter (sel : String → Bool) :
    ∀ (l : List (Nat × String)),
    (((l.filter (fun p => sel p.2)).map
        (fun p => ({ name := p.2, index := p.1, str_vals := [] } : Column))).map (·.name))
      = (l.map Prod.snd).filter sel := by
  intro l
  induction l with
  | nil => rfl
  | cons p ps ih =>
    cases h : sel p.2 <;> simp [List.filter_cons, h, ih]

theorem filter_beq_singleton (A : String) :
    ∀ (ns : List String), ns.Nodup → A ∈ ns → ns.filter (fun x => x == A) = [A] := by
  intro ns
  induction ns with
  | nil => simp
  | cons x xs ih =>
    intro hnd hm
    rcases List.mem_cons.mp hm with h | h
    · have hxA : (x == A) = true := by simp [← h]
      have hA : A ∉ xs := by
        rw [h]
        exact (List.nodup_cons.mp hnd).1
      have hnil : xs.filter (fun y => y == A) = [] := by
        rw [List.filter_eq_nil_iff]
        intro a ha
        simp only [beq_iff_eq]
        rintro rfl
        exact hA ha
      rw [List.filter_cons, if_pos hxA, hnil, h]
    · have hx : ¬(x == A) = true := by
        simp only [beq_iff_eq]
        rintro rfl
        exact (List.nodup_cons.mp hnd).1 h
      rw [List.filter_cons, if_neg hx]
      exact ih (List.nodup_cons.mp hnd).2 h

/-! ### Claims C2 and C9 -/

/-- Claim C2: when row `i` (zero-based among parsed data rows) is the first
data row whose field count differs from row 0's, the row loop of
`BaseReader.read` raises `InconsistentTableError` identifying row `i`, and no
accumulated columns are returned — the read is all-or-nothing.  With guessing
disabled the error propagates unmodified out of `read`. -/
theorem c2_first_row_mismatch (cols : List Column) (rows : List (List String))
    (i : Nat) (hi : i < rows.length)
    (hprev : ∀ j, j < i → (rows.getD j []).length = (rows.getD 0 []).length)
    (hbad : (rows.getD i []).length ≠ (rows.getD 0 []).length)
    (hidx : ∀ c ∈ cols, c.index < (rows.getD 0 []).length) :
    readRows cols rows =
      .error (.inconsistentTable (.rowMismatch cols.length (rows.getD i []).length
        i (cols.map (·.name)) (rows.getD i []))) := by
  cases rows with
  | nil => simp at hi
  | cons r rest =>
    have h0 : ((r :: rest).getD 0 []) = r := rfl
    rw [h0] at hprev hbad hidx
    have := readLoopAux_first_mismatch (r :: rest) i 0 r.length cols hi hprev hbad hidx
    simpa [readRows] using this

/-- Witness for `c2_first_row_mismatch`: a two-column table whose third data
row has one field fails at data line 2. -/
theorem c2_witness :
    readRows [{ name := "a", index := 0, str_vals := [] },
              { name := "b", index := 1, str_vals := [] }]
        [["1", "2"], ["3", "4"], ["5"]] =
      .error (.inconsistentTable (.rowMismatch 2 1 2 ["a", "b"] ["5"])) := by
  exact c2_first_row_mismatch _ _ 2 (by decide) (by decide) (by decide) (by decide)

/-- Claim C9: for any header containing distinct columns `A` and `B`,
filtering with `include_names = {A, B}` and then `exclude_names = {B}`
produces exactly the single column `A`, whatever the original column order. -/
theorem c9_include_then_exclude (names : List String) (A B : String)
    (hA : A ∈ names) (hB : B ∈ names) (hAB : A ≠ B) (hnd : names.Nodup) :
    (get_cols_filtered names (some [A, B]) (some [B])).map (·.name) = [A] := by
  show (((names.enum.filter
      (fun p => (selectedNames names (some [A, B]) (some [B])).contains p.2)).map
        (fun p => ({ name := p.2, index := p.1, str_vals := [] } : Column))).map (·.name))
    = [A]
  rw [map_name_filter, List.enum_map_snd]
  have hsel : ∀ x ∈ names,
      ((selectedNames names (some [A, B]) (some [B])).contains x) = (x == A) := by
    intro x hx
    by_cases hxA : x = A
    · have hmem : x ∈ selectedNames names (some [A, B]) (some [B]) := by
        simp only [selectedNames, List.mem_filter]
        refine ⟨⟨hx, ?_⟩, ?_⟩
        · simp [hxA]
        · simp only [hxA]
          simp [hAB]
      have hct : ((selectedNames names (some [A, B]) (some [B])).contains x) = true :=
        List.elem_iff.mpr hmem
      rw [hct]
      symm
      simp [hxA]
    · have hmem : x ∉ selectedNames names (some [A, B]) (some [B]) := by
        intro hcon
        simp only [selectedNames, List.mem_filter] at hcon
        obtain ⟨⟨hxn, hin⟩, hout⟩ := hcon
        rcases List.mem_cons.mp (List.elem_iff.mp hin) with h1 | h1
        · exact hxA h1
        · have h2 : ([B].contains x) = true := List.elem_iff.mpr h1
          rw [h2] at hout
          simp at hout
      have hc : ((selectedNames names (some [A, B]) (some [B])).contains x) = false :=
        Bool.eq_false_iff.mpr (fun hcc => hmem (List.elem_iff.mp hcc))
      rw [hc]
      symm
      simp [hxA]
  rw [List.filter_congr hsel]
  exact filter_beq_singleton A names hnd hA

/-- Witness for `c9_include_then_exclude`, with column `A` last in the
original order. -/
theorem c9_witness :
    (get_cols_filtered ["x", "B", "A"] (some ["A", "B"]) (some ["B"])).map (·.name)
      = ["A"] :=
  c9_include_then_exclude ["x", "B", "A"] "A" "B" (by decide) (by decide)
    (by decide) (by decide)

end Asciitable
